import Mathlib

/-!
Shallow embedding of the order-creation and payment-reconciliation core of
the backendtienda repository (apps/orders plus the slice of apps/catalog it
reads), together with proofs about the claims on that core.

Conventions of the embedding:
* the relational state is a `DB` record of rows; every Django queryset
  operation becomes an explicit list operation on it;
* `transaction.atomic` rollback is modelled by the operations returning the
  untouched `DB` whenever they fail;
* decimal columns carry exact values, modelled by `Int` (sums and products
  of two-place decimals are exact, so no rounding is lost);
* the Mercado Pago SDK is an `MPApi` record of response functions; a `none`
  response models an empty or failed body.
-/

namespace Tienda

/-- Model of apps.catalog.models.Product: only the columns the order core
reads (`name`, `is_active`); the order-creation query joins it onto each
variant via select_related('product'). -/
structure Product where
  name : String
  is_active : Bool
deriving DecidableEq, Repr

/-- Model of apps.catalog.models.ProductVariant, carrying its joined parent
product row. -/
structure ProductVariant where
  id : Nat
  sku : String
  price : Int
  stock : Nat
  product : Product
deriving DecidableEq, Repr

/-- Model of apps.orders.models.Order.STATUS_CHOICES. -/
inductive OrderStatus
  | pending
  | paid
  | shipped
  | delivered
  | cancelled
deriving DecidableEq, Repr

/-- Model of apps.orders.models.Order (shipping and tracking columns that no
claim touches are elided). -/
structure Order where
  id : Nat
  user : Nat
  status : OrderStatus
  payment_method : String
  payment_id : Option String
  total : Int
  external_reference : Option String
deriving DecidableEq, Repr

/-- Model of apps.orders.models.OrderItem (`order` and `variant` are the
foreign keys, by id). -/
structure OrderItem where
  order : Nat
  variant : Nat
  quantity : Nat
  price_at_purchase : Int
deriving DecidableEq, Repr

/-- The relational state the order core reads and writes. -/
structure DB where
  variants : List ProductVariant
  orders : List Order
  items : List OrderItem
deriving DecidableEq, Repr

/-- ProductVariant.objects.get by primary key. -/
def DB.findVariant (db : DB) (vid : Nat) : Option ProductVariant :=
  db.variants.find? (fun v => v.id == vid)

/-- Order.objects.get by primary key. -/
def DB.findOrder (db : DB) (oid : Nat) : Option Order :=
  db.orders.find? (fun o => o.id == oid)

/-- Order.objects.get(external_reference=ref); the column is unique. -/
def DB.findOrderByRef (db : DB) (ref : String) : Option Order :=
  db.orders.find? (fun o => o.external_reference == some ref)

/-- order.items.all(): the reverse foreign-key accessor. -/
def DB.orderItems (db : DB) (oid : Nat) : List OrderItem :=
  db.items.filter (fun it => it.order == oid)

/-- An UPDATE of one order row by primary key. -/
def DB.updateOrder (db : DB) (oid : Nat) (f : Order → Order) : DB :=
  { db with orders := db.orders.map (fun o => if o.id == oid then f o else o) }

/-- An UPDATE of one variant row's stock counter by primary key. -/
def DB.updateVariantStock (db : DB) (vid : Nat) (f : Nat → Nat) : DB :=
  { db with variants :=
      db.variants.map (fun v => if v.id == vid then { v with stock := f v.stock } else v) }

/-- One entry of the `items` list accepted by OrderCreateSerializer; the
client supplies only a variant id and a quantity, never a price. -/
structure CartLine where
  variant_id : Nat
  quantity : Nat
deriving DecidableEq, Repr

/-- OrderCreateSerializer.validate_items: every line must request a quantity
of at least 1 (the presence of the two keys is enforced by typing here). -/
def validate_items (lines : List CartLine) : Bool :=
  lines.all (fun l => decide (1 ≤ l.quantity))

/-- The distinct raise sites of the order-creation serializer.  Every one of
them raises the same Python exception class, recorded by
CreateErr.pythonExceptionClass below. -/
inductive CreateErr
  | invalidItems (msg : String)
  | variantsNotAvailable (missing_ids : List Nat)
  | productUnavailable (product_name : String)
  | insufficientStock (sku : String) (available requested : Nat)
  | concurrencyConflict
deriving DecidableEq, Repr

/-- The Python exception class raised at each site of the serializer: every
site raises rest_framework's ValidationError (the DatabaseError from the
nowait lock is caught and re-raised as a ValidationError too). -/
def CreateErr.pythonExceptionClass : CreateErr → String
  | .invalidItems _ => "rest_framework.serializers.ValidationError"
  | .variantsNotAvailable _ => "rest_framework.serializers.ValidationError"
  | .productUnavailable _ => "rest_framework.serializers.ValidationError"
  | .insufficientStock _ _ _ => "rest_framework.serializers.ValidationError"
  | .concurrencyConflict => "rest_framework.serializers.ValidationError"

/-- The detail message attached to each raise site. -/
def CreateErr.message : CreateErr → String
  | .invalidItems msg => msg
  | .variantsNotAvailable missing =>
      "Algunos productos no están disponibles o no existen: IDs " ++ toString missing
  | .productUnavailable nm =>
      "El producto " ++ nm ++ " ya no está disponible."
  | .insufficientStock sku available requested =>
      "Stock insuficiente para " ++ sku ++ ". Disponible: " ++ toString available ++
        ", Solicitado: " ++ toString requested
  | .concurrencyConflict =>
      "Hubo un conflicto de concurrencia al procesar tu orden. Por favor intenta nuevamente."

/-- quantities_map of OrderCreateSerializer.create is a Python dict
comprehension, so for a duplicated variant_id the LAST line wins. -/
def quantities_map (lines : List CartLine) (vid : Nat) : Nat :=
  (((lines.filter (fun l => l.variant_id == vid)).getLast?).map CartLine.quantity).getD 0

/-- PASO C of OrderCreateSerializer.create: walk the locked variants in fetch
order, validating product activity then stock per variant, and accumulate the
updated variant rows, the OrderItem rows to bulk-create, and the total. -/
def processVariants (oid : Nat) (qty : Nat → Nat) :
    List ProductVariant → Except CreateErr (List ProductVariant × List OrderItem × Int)
  | [] => .ok ([], [], 0)
  | v :: rest =>
    if v.product.is_active = false then
      .error (.productUnavailable v.product.name)
    else if v.stock < qty v.id then
      .error (.insufficientStock v.sku v.stock (qty v.id))
    else do
      let (vs, its, t) ← processVariants oid qty rest
      .ok ({ v with stock := v.stock - qty v.id } :: vs,
           { order := oid, variant := v.id, quantity := qty v.id,
             price_at_purchase := v.price } :: its,
           v.price * (qty v.id : Int) + t)

namespace OrderCreateSerializer

/-- The rows committed by a successful checkout: the PASO A order header
(pending, with the final total saved in the last write), the bulk-created
item rows, and the bulk stock update that touches only the stock field of
the reserved variant rows. -/
def commitCreate (db : DB) (user : Nat) (payment_method : String) (new_order_id : Nat)
    (vs : List ProductVariant) (its : List OrderItem) (total : Int) : DB :=
  { db with
      orders := db.orders ++
        [{ id := new_order_id, user := user, status := .pending,
           payment_method := payment_method, payment_id := none, total := total,
           external_reference := none }],
      items := db.items ++ its,
      variants := db.variants.map (fun v =>
        match vs.find? (fun w => w.id == v.id) with
        | some w => { v with stock := w.stock }
        | none => v) }

/-- OrderCreateSerializer.create.  `locked_rows` is the set of variant ids
already locked by concurrent transactions: select_for_update(nowait=True)
raises DatabaseError as soon as the batched fetch touches one of them, which
the serializer catches and re-raises as the concurrency ValidationError.
An error leaves the database untouched (transaction.atomic rollback). -/
def create (db : DB) (locked_rows : List Nat) (user : Nat)
    (lines : List CartLine) (payment_method : String) (new_order_id : Nat) :
    Except CreateErr (DB × Nat) :=
  let variant_ids := lines.map CartLine.variant_id
  -- PASO B: one batched SELECT ... FOR UPDATE NOWAIT joined with product
  let variants := db.variants.filter (fun v => variant_ids.contains v.id)
  if variants.any (fun v => locked_rows.contains v.id) then
    .error .concurrencyConflict
  else if variants.length ≠ variant_ids.length then
    let found_ids := variants.map ProductVariant.id
    .error (.variantsNotAvailable
      ((variant_ids.filter (fun i => !(found_ids.contains i))).dedup))
  else
    match processVariants new_order_id (quantities_map lines) variants with
    | .error e => .error e
    | .ok (vs, its, total) =>
      -- PASO A header plus PASO D bulk writes, committed together
      .ok (commitCreate db user payment_method new_order_id vs its total, new_order_id)

end OrderCreateSerializer

/-- HTTP-level outcome of POST /orders/. -/
inductive CreateResp
  | created (oid : Nat)
  | badRequest (e : CreateErr)
deriving DecidableEq, Repr

namespace OrderViewSet

/-- OrderViewSet.create: serializer.is_valid(raise_exception=True) runs the
field validators (non-empty list, every quantity at least 1), then
serializer.save() runs OrderCreateSerializer.create; any ValidationError
surfaces as a 400 response and the transaction rolls back, leaving the
database unchanged. -/
def create (db : DB) (locked_rows : List Nat) (user : Nat)
    (lines : List CartLine) (payment_method : String) (new_order_id : Nat) :
    CreateResp × DB :=
  if lines.isEmpty then
    (.badRequest (.invalidItems "Ensure this field has at least 1 elements."), db)
  else if validate_items lines = false then
    (.badRequest (.invalidItems "La cantidad debe ser mayor a 0"), db)
  else
    match OrderCreateSerializer.create db locked_rows user lines payment_method new_order_id with
    | .ok (db2, oid) => (.created oid, db2)
    | .error e => (.badRequest e, db)

end OrderViewSet

/-- One element of a merchant order's embedded payments list. -/
structure MerchantOrderPayment where
  status : String
  id : Option String
deriving DecidableEq, Repr

/-- Body of sdk.merchant_order().get(id)['response']. -/
structure MerchantOrderResp where
  external_reference : Option String
  payments : List MerchantOrderPayment
deriving DecidableEq, Repr

/-- Body of sdk.payment().get(id)['response'], as read by both the webhook
and validate_payment_notification. -/
structure PaymentResp where
  status : String
  external_reference : Option String
  id : Option String
  transaction_amount : Option Int
  currency_id : Option String
deriving DecidableEq, Repr

/-- The slice of the Mercado Pago SDK that reconciliation calls; a `none`
result models an empty or failed response body. -/
structure MPApi where
  merchant_order : String → Option MerchantOrderResp
  payment : String → Option PaymentResp
  search_by_preference : String → Option (List String)

/-- apps.orders.services.process_mercadopago_webhook.  Every early return
leaves the database unchanged; the merchant_order branch checks idempotency
(already paid means drop), the payment branch does not. -/
def process_mercadopago_webhook (api : MPApi) (topic : String) (data_id : String)
    (db : DB) : DB :=
  if topic = "topic_merchant_order_wh" ∨ topic = "merchant_order" then
    match api.merchant_order data_id with
    | none => db
    | some mo =>
      match mo.external_reference with
      | none => db
      | some ref =>
        if ref = "" then db
        else
          match db.findOrderByRef ref with
          | none => db
          | some order =>
            -- Idempotencia
            if order.status = .paid then db
            else
              match mo.payments.find? (fun p => p.status == "approved") with
              | none => db
              | some approved =>
                db.updateOrder order.id (fun o =>
                  { o with status := .paid, payment_id := approved.id })
  else if topic = "payment" then
    match api.payment data_id with
    | none => db
    | some p =>
      match p.external_reference with
      | none => db
      | some ref =>
        if ref = "" then db
        else
          match db.findOrderByRef ref with
          | none => db
          | some order =>
            if p.status = "approved" then
              db.updateOrder order.id (fun o =>
                { o with status := .paid, payment_id := p.id })
            else db
  else db

/-- Outcome of MercadoPagoService.validate_payment_notification. -/
structure NormalizedPayment where
  order_id : String
  payment_status : String
  payment_id : String
  amount : Int
  currency : Option String
deriving DecidableEq, Repr

/-- MercadoPagoService.validate_payment_notification: re-fetch the payment by
the requested id, require a non-empty external_reference and a non-zero
amount, and keep only the closed set of known statuses.  The returned
payment_id is the REQUESTED id, not the body's id field. -/
def validate_payment_notification (api : MPApi) (data_id : Option String) :
    Option NormalizedPayment :=
  match data_id with
  | none => none
  | some pid =>
    if pid = "" then none
    else
      match api.payment pid with
      | none => none
      | some pd =>
        match pd.external_reference with
        | none => none
        | some ref =>
          if ref = "" then none
          else
            match pd.transaction_amount with
            | none => none
            | some amt =>
              if amt = 0 then none
              else if pd.status = "approved" ∨ pd.status = "pending" ∨
                  pd.status = "rejected" ∨ pd.status = "cancelled" ∨
                  pd.status = "refunded" then
                some { order_id := ref, payment_status := pd.status, payment_id := pid,
                       amount := amt, currency := pd.currency_id }
              else none

/-- HTTP-level outcome of POST /orders/pk/sync_payment/. -/
inductive SyncResp
  | notFound404
  | missingPreferenceId400
  | mpQueryError400
  | noPaymentsFound404
  | validationFailed400
  | synced200 (payment_status : String) (payment_id : String)
deriving DecidableEq, Repr

namespace OrderViewSet

/-- OrderViewSet.sync_payment.  get_object runs on the user-scoped queryset
(get_queryset filters user=request.user), then the first payment found for
the preference is validated and applied: approved writes status and
payment_id, pending writes only payment_id, anything else writes nothing.
There is no already-paid check on this path. -/
def sync_payment (api : MPApi) (db : DB) (request_user : Nat) (pk : Nat)
    (preference_id : Option String) : SyncResp × DB :=
  match db.orders.find? (fun o => o.id == pk && o.user == request_user) with
  | none => (.notFound404, db)
  | some order =>
    match preference_id with
    | none => (.missingPreferenceId400, db)
    | some pref =>
      if pref = "" then (.missingPreferenceId400, db)
      else
        match api.search_by_preference pref with
        | none => (.mpQueryError400, db)
        | some payment_ids =>
          match payment_ids.head? with
          | none => (.noPaymentsFound404, db)
          | some first_id =>
            match validate_payment_notification api (some first_id) with
            | none => (.validationFailed400, db)
            | some vr =>
              if vr.payment_status = "approved" then
                (.synced200 "approved" vr.payment_id,
                 db.updateOrder order.id (fun o =>
                   { o with status := .paid, payment_id := some vr.payment_id }))
              else if vr.payment_status = "pending" then
                (.synced200 "pending" vr.payment_id,
                 db.updateOrder order.id (fun o =>
                   { o with payment_id := some vr.payment_id }))
              else
                (.synced200 vr.payment_status vr.payment_id, db)

end OrderViewSet

/-- HTTP-level outcome of POST /orders/pk/cancel/. -/
inductive CancelResp
  | notFound404
  | forbidden403
  | invalidState400 (current : OrderStatus)
  | cancelled200
deriving DecidableEq, Repr

namespace OrderViewSet

/-- OrderViewSet.cancel.  get_object runs on the user-scoped queryset, so a
request for another user's order raises Http404 before the explicit
permission branch (which is therefore unreachable); a non-pending order is
rejected; otherwise each line's quantity is added back to its variant's
stock and the order is marked cancelled. -/
def cancel (db : DB) (request_user : Nat) (pk : Nat) : CancelResp × DB :=
  match db.orders.find? (fun o => o.id == pk && o.user == request_user) with
  | none => (.notFound404, db)
  | some order =>
    if order.user ≠ request_user then (.forbidden403, db)
    else if order.status ≠ .pending then (.invalidState400 order.status, db)
    else
      let restored := (db.orderItems order.id).foldl
        (fun d it => d.updateVariantStock it.variant (fun s => s + it.quantity)) db
      (.cancelled200, restored.updateOrder order.id (fun o => { o with status := .cancelled }))

end OrderViewSet

/-- A live catalog price edit (for instance through the admin): it touches
only the variant row's price column. -/
def set_variant_price (db : DB) (vid : Nat) (new_price : Int) : DB :=
  { db with variants :=
      db.variants.map (fun v => if v.id == vid then { v with price := new_price } else v) }

/-! Concrete database and SDK fixtures used to evaluate the code on
specific scenarios. -/

/-- A cancelled order that already went through checkout, correlated with the
payment processor through external_reference "1". -/
def fixC1db : DB :=
  { variants := [],
    orders := [{ id := 1, user := 1, status := .cancelled,
                 payment_method := "mercadopago", payment_id := none, total := 200,
                 external_reference := some "1" }],
    items := [] }

/-- An SDK whose payment endpoint reports an approved payment for external
reference "1". -/
def fixC1api : MPApi :=
  { merchant_order := fun _ => none,
    payment := fun _ => some { status := "approved", external_reference := some "1",
                               id := some "777", transaction_amount := some 10000,
                               currency_id := some "ARS" },
    search_by_preference := fun _ => none }

/-- An order that is already paid, with payment id "111" on record. -/
def fixC2db : DB :=
  { variants := [],
    orders := [{ id := 1, user := 1, status := .paid,
                 payment_method := "mercadopago", payment_id := some "111", total := 200,
                 external_reference := some "1" }],
    items := [] }

/-- An SDK reporting a second, distinct approved payment "222" for the same
external reference "1". -/
def fixC2api : MPApi :=
  { merchant_order := fun _ => none,
    payment := fun _ => some { status := "approved", external_reference := some "1",
                               id := some "222", transaction_amount := some 10000,
                               currency_id := some "ARS" },
    search_by_preference := fun _ => none }

/-- One active variant, SKU-1, price 100, stock 5. -/
def fixC5db : DB :=
  { variants := [{ id := 1, sku := "SKU-1", price := 100, stock := 5,
                   product := { name := "Remera", is_active := true } }],
    orders := [],
    items := [] }

/-- A pending order owned by user 1, correlated through external reference
"1", with no payment id recorded yet. -/
def fixC6db : DB :=
  { variants := [],
    orders := [{ id := 1, user := 1, status := .pending,
                 payment_method := "mercadopago", payment_id := none, total := 200,
                 external_reference := some "1" }],
    items := [] }

/-- An SDK whose search finds payment "55" for the preference, and whose
payment endpoint reports that payment as still pending. -/
def fixC6api : MPApi :=
  { merchant_order := fun _ => none,
    payment := fun _ => some { status := "pending", external_reference := some "1",
                               id := some "55", transaction_amount := some 10000,
                               currency_id := some "ARS" },
    search_by_preference := fun _ => some ["55"] }

/-- A pending order owned by user 1. -/
def fixC7db : DB :=
  { variants := [],
    orders := [{ id := 1, user := 1, status := .pending,
                 payment_method := "mercadopago", payment_id := none, total := 100,
                 external_reference := none }],
    items := [] }

/-- Two active variants: SKU-1 at price 100 with stock 5 and SKU-2 at price
250 with stock 4. -/
def fixC3db : DB :=
  { variants := [{ id := 1, sku := "SKU-1", price := 100, stock := 5,
                   product := { name := "Remera", is_active := true } },
                 { id := 2, sku := "SKU-2", price := 250, stock := 4,
                   product := { name := "Gorra", is_active := true } }],
    orders := [],
    items := [] }

/-- One active variant, SKU-1, price 100, with only 1 unit in stock. -/
def fixC4db : DB :=
  { variants := [{ id := 1, sku := "SKU-1", price := 100, stock := 1,
                   product := { name := "Remera", is_active := true } }],
    orders := [],
    items := [] }

/-- One active variant, SKU-1, price 100, stock 5. -/
def fixC10db : DB :=
  { variants := [{ id := 1, sku := "SKU-1", price := 100, stock := 5,
                   product := { name := "Remera", is_active := true } }],
    orders := [],
    items := [] }

/-- One active variant, SKU-1, price 100, stock 5 (base state for a
successful checkout). -/
def fixC9db : DB :=
  { variants := [{ id := 1, sku := "SKU-1", price := 100, stock := 5,
                   product := { name := "Remera", is_active := true } }],
    orders := [],
    items := [] }

/-- The database produced by checking out two units of SKU-1 from fixC9db as
user 7 into order 10. -/
def fixC9db2 : DB :=
  { variants := [{ id := 1, sku := "SKU-1", price := 100, stock := 3,
                   product := { name := "Remera", is_active := true } }],
    orders := [{ id := 10, user := 7, status := .pending,
                 payment_method := "mercadopago", payment_id := none, total := 200,
                 external_reference := none }],
    items := [{ order := 10, variant := 1, quantity := 2, price_at_purchase := 100 }] }

/-- An SDK that answers nothing at all. -/
def fixC9api : MPApi :=
  { merchant_order := fun _ => none,
    payment := fun _ => none,
    search_by_preference := fun _ => none }

/-- A pending order of user 1 holding two units of variant 1 (stock 3 after
the purchase). -/
def fixC8db : DB :=
  { variants := [{ id := 1, sku := "SKU-1", price := 100, stock := 3,
                   product := { name := "Remera", is_active := true } }],
    orders := [{ id := 1, user := 1, status := .pending,
                 payment_method := "mercadopago", payment_id := none, total := 200,
                 external_reference := none }],
    items := [{ order := 1, variant := 1, quantity := 2, price_at_purchase := 100 }] }

end Tienda

namespace Tienda

/-- Auxiliary: find? commutes with mapping a row transformation that does not
disturb the predicate (an UPDATE that leaves the searched columns alone). -/
theorem find?_map_comm {α : Type} (g : α → α) (p : α → Bool)
    (hg : ∀ a, p (g a) = p a) :
    ∀ L : List α, (L.map g).find? p = (L.find? p).map g := by
  intro L
  induction L with
  | nil => simp
  | cons a t ih =>
    by_cases h : p a = true
    · rw [List.map_cons, List.find?_cons_of_pos _ (by rw [hg]; exact h),
        List.find?_cons_of_pos _ h, Option.map_some']
    · have h' : ¬ p a = true := h
      rw [List.map_cons, List.find?_cons_of_neg _ (by rw [hg]; exact h'),
        List.find?_cons_of_neg _ h', ih]

/-- Auxiliary: in a list with distinct keys, find? with a predicate that
holds at a and forces the key of a returns exactly a. -/
theorem find?_key_of_nodup {α : Type} (key : α → Nat) (p : α → Bool) (a : α)
    (hpa : p a = true) (hkey : ∀ b, p b = true → key b = key a) :
    ∀ L : List α, (L.map key).Nodup → a ∈ L → L.find? p = some a := by
  intro L
  induction L with
  | nil => intro _ h; cases h
  | cons b t ih =>
    intro hN hmem
    have hN' : (key b ∉ t.map key) ∧ (t.map key).Nodup := by
      rw [List.map_cons, List.nodup_cons] at hN; exact hN
    rcases List.mem_cons.mp hmem with rfl | hat
    · exact List.find?_cons_of_pos _ hpa
    · by_cases hb : p b = true
      · exact absurd ((hkey b hb) ▸ List.mem_map_of_mem key hat) hN'.1
      · rw [List.find?_cons_of_neg _ hb]
        exact ih hN'.2 hat

/-- Auxiliary: with no duplicated variant_id, the quantities_map dict assigns
each line exactly its own quantity. -/
theorem quantities_map_of_nodup :
    ∀ lines : List CartLine, (lines.map CartLine.variant_id).Nodup →
      ∀ l ∈ lines, quantities_map lines l.variant_id = l.quantity := by
  intro lines
  induction lines with
  | nil => intro _ l hl; cases hl
  | cons a t ih =>
    intro hN l hl
    have hN' : (a.variant_id ∉ t.map CartLine.variant_id) ∧
        (t.map CartLine.variant_id).Nodup := by
      rw [List.map_cons, List.nodup_cons] at hN; exact hN
    rcases List.mem_cons.mp hl with rfl | hlt
    · have ht : t.filter (fun x => x.variant_id == l.variant_id) = [] := by
        rw [List.filter_eq_nil_iff]
        intro x hx hpx
        exact hN'.1 (by
          have : x.variant_id = l.variant_id := by simpa using hpx
          exact this ▸ List.mem_map_of_mem CartLine.variant_id hx)
      unfold quantities_map
      rw [List.filter_cons_of_pos (by simp), ht]
      rfl
    · have hne : (a.variant_id == l.variant_id) = false := by
        simp only [beq_eq_false_iff_ne, ne_eq]
        intro he
        exact hN'.1 (he ▸ List.mem_map_of_mem CartLine.variant_id hlt)
      have := ih hN'.2 l hlt
      unfold quantities_map at this ⊢
      rw [List.filter_cons_of_neg (by simp [hne])]
      exact this

/-- Auxiliary: when every fetched variant is active and sufficiently stocked,
the in-memory pass succeeds and returns the decremented rows, the item rows
priced from the locked variant, and the accumulated total. -/
theorem processVariants_ok (oid : Nat) (qty : Nat → Nat) :
    ∀ L : List ProductVariant,
      (∀ v ∈ L, v.product.is_active = true ∧ qty v.id ≤ v.stock) →
      processVariants oid qty L =
        .ok (L.map (fun v => { v with stock := v.stock - qty v.id }),
             L.map (fun v => { order := oid, variant := v.id, quantity := qty v.id,
                               price_at_purchase := v.price }),
             (L.map (fun v => v.price * (qty v.id : Int))).sum) := by
  intro L
  induction L with
  | nil => intro _; simp [processVariants]
  | cons v rest ih =>
    intro h
    have hv := h v (List.mem_cons_self v rest)
    have hrest := ih (fun w hw => h w (List.mem_cons_of_mem v hw))
    rw [processVariants, if_neg (by simp [hv.1]),
      if_neg (Nat.not_lt.mpr hv.2), hrest]
    rfl

/-- Auxiliary: when every fetched variant is active but some is short of
stock, the in-memory pass aborts with the insufficient-stock error of one of
the short variants (the first in fetch order). -/
theorem processVariants_insufficient (oid : Nat) (qty : Nat → Nat) :
    ∀ L : List ProductVariant,
      (∀ v ∈ L, v.product.is_active = true) →
      (∃ v ∈ L, v.stock < qty v.id) →
      ∃ v ∈ L, v.stock < qty v.id ∧
        processVariants oid qty L =
          .error (.insufficientStock v.sku v.stock (qty v.id)) := by
  intro L
  induction L with
  | nil => intro _ h; exact absurd h (by simp)
  | cons v rest ih =>
    intro hact hex
    have hv := hact v (List.mem_cons_self v rest)
    by_cases hs : v.stock < qty v.id
    · refine ⟨v, List.mem_cons_self v rest, hs, ?_⟩
      rw [processVariants, if_neg (by simp [hv]), if_pos hs]
    · have hex' : ∃ w ∈ rest, w.stock < qty w.id := by
        rcases hex with ⟨w, hw, hws⟩
        rcases List.mem_cons.mp hw with rfl | hwr
        · exact absurd hws hs
        · exact ⟨w, hwr, hws⟩
      rcases ih (fun w hw => hact w (List.mem_cons_of_mem v hw)) hex' with ⟨w, hwr, hws, heq⟩
      refine ⟨w, List.mem_cons_of_mem v hwr, hws, ?_⟩
      rw [processVariants, if_neg (by simp [hv]), if_neg hs, heq]
      rfl

/-- Auxiliary: reading a variant after a stock UPDATE on row w sees the
update exactly when the ids match. -/
theorem findVariant_updateVariantStock (db : DB) (w vid : Nat) (f : Nat → Nat) :
    (db.updateVariantStock w f).findVariant vid =
      (db.findVariant vid).map
        (fun v => if v.id == w then { v with stock := f v.stock } else v) := by
  unfold DB.updateVariantStock DB.findVariant
  exact find?_map_comm _ _ (fun a => by by_cases h : a.id == w <;> simp [h]) db.variants

/-- Auxiliary: the stock-restore loop of cancel adds, to each variant row,
the summed quantity of the processed items that reference it. -/
theorem restock_fold_findVariant :
    ∀ (its : List OrderItem) (db : DB) (vid : Nat),
      ((its.foldl (fun d it =>
          d.updateVariantStock it.variant (fun s => s + it.quantity)) db).findVariant vid)
      = (db.findVariant vid).map (fun v =>
          { v with stock := v.stock +
              ((its.filter (fun it => it.variant == vid)).map OrderItem.quantity).sum }) := by
  intro its
  induction its with
  | nil =>
    intro db vid
    cases h : db.findVariant vid <;> simp [h]
  | cons it rest ih =>
    intro db vid
    rw [List.foldl_cons, ih, findVariant_updateVariantStock]
    cases hfv : db.findVariant vid with
    | none => rfl
    | some v =>
      have hid : v.id = vid := by
        rw [DB.findVariant] at hfv
        simpa using List.find?_some hfv
      by_cases hw : it.variant = vid
      · rw [Option.map_some', Option.map_some',
          if_pos (by simp [hid, hw]), List.filter_cons_of_pos (by simp [hw])]
        simp [Nat.add_assoc]
      · rw [Option.map_some', Option.map_some',
          if_neg (by rw [hid]; simpa using fun he => hw he.symm),
          List.filter_cons_of_neg (by simpa using hw)]
        rfl

/-- Auxiliary: the stock-restore loop touches only variant rows. -/
theorem restock_fold_orders_items :
    ∀ (its : List OrderItem) (db : DB),
      ((its.foldl (fun d it =>
          d.updateVariantStock it.variant (fun s => s + it.quantity)) db).orders = db.orders)
      ∧ ((its.foldl (fun d it =>
          d.updateVariantStock it.variant (fun s => s + it.quantity)) db).items = db.items) := by
  intro its
  induction its with
  | nil => intro db; exact ⟨rfl, rfl⟩
  | cons it rest ih =>
    intro db
    rw [List.foldl_cons]
    exact ih _

/-- Auxiliary: in a list with distinct keys, filtering by the key of a member
keeps exactly that member. -/
theorem filter_key_of_nodup {α : Type} (key : α → Nat) :
    ∀ (L : List α) (a : α), (L.map key).Nodup → a ∈ L →
      L.filter (fun b => key b == key a) = [a] := by
  intro L
  induction L with
  | nil => intro a _ h; cases h
  | cons b t ih =>
    intro a hN ha
    have hN' : (key b ∉ t.map key) ∧ (t.map key).Nodup := by
      rw [List.map_cons, List.nodup_cons] at hN; exact hN
    rcases List.mem_cons.mp ha with rfl | hat
    · rw [List.filter_cons_of_pos (by simp)]
      have ht : t.filter (fun c => key c == key a) = [] := by
        rw [List.filter_eq_nil_iff]
        intro c hc hpc
        exact hN'.1 (by
          have : key c = key a := by simpa using hpc
          exact this ▸ List.mem_map_of_mem key hc)
      rw [ht]
    · have hbk : (key b == key a) = false := by
        simp only [beq_eq_false_iff_ne, ne_eq]
        intro he
        exact hN'.1 (he ▸ List.mem_map_of_mem key hat)
      rw [List.filter_cons_of_neg (by simp [hbk])]
      exact ih a hN'.2 hat

/-- Auxiliary: an order UPDATE rewrites the orders table pointwise. -/
theorem updateOrder_orders (db : DB) (w : Nat) (f : Order → Order) :
    (db.updateOrder w f).orders = db.orders.map (fun b => if b.id == w then f b else b) :=
  rfl

/-- C1: the claim says no reconciliation operation moves an order out of a
terminal status, and in particular a cancelled order is never moved to paid
by an approved-payment event.  Evaluating the code: a payment-topic webhook
carrying an approved payment for the cancelled order of fixC1db rewrites its
status to paid (and records the payment id), because the payment branch of
process_mercadopago_webhook has no terminal-status or idempotency guard. -/
theorem c1_payment_webhook_moves_cancelled_order_to_paid :
    (process_mercadopago_webhook fixC1api "payment" "777" fixC1db).orders
      = [{ id := 1, user := 1, status := .paid,
           payment_method := "mercadopago", payment_id := some "777", total := 200,
           external_reference := some "1" }]
    ∧ process_mercadopago_webhook fixC1api "payment" "777" fixC1db ≠ fixC1db := by
  constructor
  · rfl
  · decide

/-- C2: the claim says an approved-payment event of either kind on an
already-paid order is dropped with no state change.  Evaluating the code: a
payment-topic event for a second approved payment "222" on the already-paid
order of fixC2db (paid, payment id "111") is not dropped — it overwrites the
stored payment id, changing the state. -/
theorem c2_payment_webhook_not_dropped_on_paid_order :
    (process_mercadopago_webhook fixC2api "payment" "222" fixC2db).orders
      = [{ id := 1, user := 1, status := .paid,
           payment_method := "mercadopago", payment_id := some "222", total := 200,
           external_reference := some "1" }]
    ∧ process_mercadopago_webhook fixC2api "payment" "222" fixC2db ≠ fixC2db := by
  constructor
  · rfl
  · decide

/-- C6: the claim says the manual sync path produces the same status and
payment-id outcome as webhook processing of the corresponding event.
Evaluating both paths on the same pending payment "55" for the order of
fixC6db: sync_payment records the payment id on the order, while the
payment-topic webhook leaves the database untouched — the two entry points
are parallel implementations that diverge. -/
theorem c6_sync_payment_diverges_from_webhook_on_pending :
    (OrderViewSet.sync_payment fixC6api fixC6db 1 1 (some "pref-1")).2
      ≠ process_mercadopago_webhook fixC6api "payment" "55" fixC6db
    ∧ ((OrderViewSet.sync_payment fixC6api fixC6db 1 1 (some "pref-1")).2.findOrder 1).map
        Order.payment_id = some (some "55")
    ∧ process_mercadopago_webhook fixC6api "payment" "55" fixC6db = fixC6db := by
  refine ⟨by decide, by rfl, by rfl⟩

/-- C5 counterexample: the claim says the concurrency-conflict failure is
distinguishable from the business-rule rejections as a distinct error kind,
not merely by message.  Evaluating the code: a lock conflict on variant 1 and
an insufficient-stock rejection on the same variant both surface as the same
Python exception class (rest_framework's ValidationError); only their
messages differ. -/
theorem c5_concurrency_error_is_same_kind_as_business_errors :
    OrderViewSet.create fixC5db [1] 7 [⟨1, 2⟩] "mercadopago" 10
      = (.badRequest .concurrencyConflict, fixC5db)
    ∧ OrderViewSet.create fixC5db [] 7 [⟨1, 10⟩] "mercadopago" 10
      = (.badRequest (.insufficientStock "SKU-1" 5 10), fixC5db)
    ∧ CreateErr.pythonExceptionClass .concurrencyConflict
      = CreateErr.pythonExceptionClass (.insufficientStock "SKU-1" 5 10)
    ∧ CreateErr.message .concurrencyConflict
      ≠ CreateErr.message (.insufficientStock "SKU-1" 5 10) := by
  refine ⟨by rfl, by rfl, by rfl, by decide⟩

/-- C7 (amended): a cancel request from a user who does not own the target
order fails with the not-found outcome — the user-scoped queryset hides the
order before the explicit permission branch can run — and the database, in
particular the order's status, is unchanged. -/
theorem c7_amended_cancel_by_non_owner_not_found (db : DB) (u pk : Nat)
    (h : ∀ o ∈ db.orders, o.id = pk → o.user ≠ u) :
    OrderViewSet.cancel db u pk = (.notFound404, db) := by
  have hfind : db.orders.find? (fun o => o.id == pk && o.user == u) = none := by
    rw [List.find?_eq_none]
    intro o ho hc
    simp only [Bool.and_eq_true, beq_iff_eq] at hc
    exact h o ho hc.1 hc.2
  unfold OrderViewSet.cancel
  rw [hfind]

/-- C7 amended witness: user 2 cancelling user 1's order 1 concretely gets
the not-found outcome with the database unchanged. -/
theorem c7_amended_witness :
    OrderViewSet.cancel fixC7db 2 1 = (.notFound404, fixC7db) :=
  c7_amended_cancel_by_non_owner_not_found fixC7db 2 1 (by decide)

/-- C7 counterexample: the claim says a cancel request from a non-owning user
fails with a permission error.  Evaluating the code: user 2 cancelling user
1's order gets the not-found outcome (the user-scoped queryset hides the
order before the permission branch can run), which is a different outcome
from the permission one. -/
theorem c7_cancel_by_non_owner_is_not_found :
    OrderViewSet.cancel fixC7db 2 1 = (.notFound404, fixC7db)
    ∧ CancelResp.notFound404 ≠ CancelResp.forbidden403 := by
  refine ⟨by rfl, by decide⟩

end Tienda

namespace Tienda

/-- C8: cancelling a pending order by its owner marks it cancelled and adds
each line's quantity back to that line's variant's stock; a second cancel
attempt on the same order then fails with the invalid-state outcome (the
status is no longer pending) and changes nothing further. -/
theorem c8_cancel_restores_stock_then_conflicts (db : DB) (u pk : Nat) (o : Order)
    (hNo : (db.orders.map Order.id).Nodup)
    (ho : o ∈ db.orders) (hid : o.id = pk) (huser : o.user = u)
    (hst : o.status = .pending)
    (hNit : ((db.orderItems pk).map OrderItem.variant).Nodup) :
    ∃ db2, OrderViewSet.cancel db u pk = (.cancelled200, db2) ∧
      db2.findOrder pk = some { o with status := .cancelled } ∧
      (∀ it ∈ db.orderItems pk,
        db2.findVariant it.variant =
          (db.findVariant it.variant).map
            (fun v => { v with stock := v.stock + it.quantity })) ∧
      OrderViewSet.cancel db2 u pk = (.invalidState400 .cancelled, db2) := by
  subst hid
  subst huser
  have hfind : db.orders.find? (fun b => b.id == o.id && b.user == o.user) = some o :=
    find?_key_of_nodup Order.id _ o (by simp)
      (fun b hb => by
        simp only [Bool.and_eq_true, beq_iff_eq] at hb
        exact hb.1)
      db.orders hNo ho
  have hfind1 : db.orders.find? (fun b => b.id == o.id) = some o :=
    find?_key_of_nodup Order.id _ o (by simp)
      (fun b hb => by simpa using hb) db.orders hNo ho
  have hpg : ∀ b : Order,
      (fun b => b.id == o.id)
          (if b.id == o.id then { b with status := OrderStatus.cancelled } else b)
        = (fun b => b.id == o.id) b := by
    intro b
    by_cases hb : (b.id == o.id) = true <;> simp [hb]
  have hpg2 : ∀ b : Order,
      (fun b => b.id == o.id && b.user == o.user)
          (if b.id == o.id then { b with status := OrderStatus.cancelled } else b)
        = (fun b => b.id == o.id && b.user == o.user) b := by
    intro b
    by_cases hb : (b.id == o.id) = true <;> simp [hb]
  refine ⟨((db.orderItems o.id).foldl
      (fun d it => d.updateVariantStock it.variant (fun s => s + it.quantity)) db).updateOrder
        o.id (fun b => { b with status := .cancelled }), ?_, ?_, ?_, ?_⟩
  · unfold OrderViewSet.cancel
    simp only [hfind]
    rw [if_neg (by simp), if_neg (by simp [hst])]
  · unfold DB.findOrder
    rw [updateOrder_orders, (restock_fold_orders_items _ db).1,
      find?_map_comm _ _ hpg db.orders, hfind1]
    simp
  · intro it hit
    have h1 : (((db.orderItems o.id).foldl
        (fun d it => d.updateVariantStock it.variant (fun s => s + it.quantity)) db).updateOrder
          o.id (fun b => { b with status := .cancelled })).findVariant it.variant
        = (((db.orderItems o.id).foldl
        (fun d it => d.updateVariantStock it.variant (fun s => s + it.quantity)) db)).findVariant
          it.variant := rfl
    rw [h1, restock_fold_findVariant,
      filter_key_of_nodup OrderItem.variant (db.orderItems o.id) it hNit hit]
    simp
  · have hfind3 : (((db.orderItems o.id).foldl
        (fun d it => d.updateVariantStock it.variant (fun s => s + it.quantity)) db).updateOrder
          o.id (fun b => { b with status := .cancelled })).orders.find?
            (fun b => b.id == o.id && b.user == o.user)
        = some { o with status := OrderStatus.cancelled } := by
      rw [updateOrder_orders, (restock_fold_orders_items _ db).1,
        find?_map_comm _ _ hpg2 db.orders, hfind]
      simp
    unfold OrderViewSet.cancel
    simp only [hfind3]
    rw [if_neg (by simp), if_pos (by simp)]

/-- C8 witness: cancelling the pending two-unit order of fixC8db restores the
variant's stock from 3 to 5, marks the order cancelled, and a second cancel
attempt is rejected with the invalid-state outcome. -/
theorem c8_witness :
    ∃ db2, OrderViewSet.cancel fixC8db 1 1 = (.cancelled200, db2) ∧
      db2.findOrder 1 = some { id := 1, user := 1, status := .cancelled,
                               payment_method := "mercadopago", payment_id := none,
                               total := 200, external_reference := none } ∧
      (∀ it ∈ fixC8db.orderItems 1,
        db2.findVariant it.variant =
          (fixC8db.findVariant it.variant).map
            (fun v => { v with stock := v.stock + it.quantity })) ∧
      OrderViewSet.cancel db2 1 1 = (.invalidState400 .cancelled, db2) :=
  c8_cancel_restores_stock_then_conflicts fixC8db 1 1
    { id := 1, user := 1, status := .pending, payment_method := "mercadopago",
      payment_id := none, total := 200, external_reference := none }
    (by decide) (by decide) rfl rfl rfl (by decide)

end Tienda

namespace Tienda

/-- Auxiliary: every item row built by the in-memory pass is priced from the
locked variant row it references. -/
theorem processVariants_items_shape (oid : Nat) (qty : Nat → Nat) :
    ∀ (L : List ProductVariant) (vs : List ProductVariant) (its : List OrderItem) (t : Int),
      processVariants oid qty L = .ok (vs, its, t) →
      ∀ x ∈ its, ∃ v ∈ L,
        x = { order := oid, variant := v.id, quantity := qty v.id,
              price_at_purchase := v.price } := by
  intro L
  induction L with
  | nil =>
    intro vs its t h x hx
    rw [processVariants] at h
    injection h with h'
    injection h' with hvs hrest
    injection hrest with hits ht
    rw [← hits] at hx
    cases hx
  | cons v rest ih =>
    intro vs its t h x hx
    rw [processVariants] at h
    by_cases h1 : v.product.is_active = false
    · rw [if_pos h1] at h; exact Except.noConfusion h
    · rw [if_neg h1] at h
      by_cases h2 : v.stock < qty v.id
      · rw [if_pos h2] at h; exact Except.noConfusion h
      · rw [if_neg h2] at h
        cases hr : processVariants oid qty rest with
        | error e => rw [hr] at h; exact Except.noConfusion h
        | ok triple =>
          obtain ⟨vs', its', t'⟩ := triple
          rw [hr] at h
          injection h with h'
          injection h' with hvs hrest
          injection hrest with hits ht
          rw [← hits] at hx
          rcases List.mem_cons.mp hx with rfl | hx'
          · exact ⟨v, List.mem_cons_self v rest, rfl⟩
          · rcases ih vs' its' t' hr x hx' with ⟨w, hw, hxw⟩
            exact ⟨w, List.mem_cons_of_mem v hw, hxw⟩

/-- Auxiliary: inverting a successful order creation: the in-memory pass
succeeded on the fetched variants and the new database appends exactly its
item rows. -/
theorem create_ok_items (db : DB) (locked : List Nat) (u : Nat)
    (lines : List CartLine) (pm : String) (oid : Nat) (db2 : DB) (r : Nat)
    (h : OrderCreateSerializer.create db locked u lines pm oid = .ok (db2, r)) :
    ∃ vs its t,
      processVariants oid (quantities_map lines)
        (db.variants.filter
          (fun v => (lines.map CartLine.variant_id).contains v.id)) = .ok (vs, its, t) ∧
      db2.items = db.items ++ its := by
  rw [OrderCreateSerializer.create] at h
  split at h
  · exact Except.noConfusion h
  · split at h
    · exact Except.noConfusion h
    · split at h
      · exact Except.noConfusion h
      · next vs its t heq =>
        injection h with h'
        injection h' with hdb hr
        exact ⟨vs, its, t, heq, by rw [← hdb]; rfl⟩

/-- Auxiliary: webhook processing never writes the order-items table. -/
theorem process_webhook_preserves_items (api : MPApi) (topic data_id : String) (db : DB) :
    (process_mercadopago_webhook api topic data_id db).items = db.items := by
  unfold process_mercadopago_webhook
  repeat' split
  all_goals rfl

/-- Auxiliary: cancellation never writes the order-items table. -/
theorem cancel_preserves_items (db : DB) (u pk : Nat) :
    (OrderViewSet.cancel db u pk).2.items = db.items := by
  unfold OrderViewSet.cancel
  repeat' split
  all_goals first
    | rfl
    | exact (restock_fold_orders_items _ db).2

/-- Auxiliary: the manual sync path never writes the order-items table. -/
theorem sync_preserves_items (api : MPApi) (db : DB) (u pk : Nat) (pref : Option String) :
    (OrderViewSet.sync_payment api db u pk pref).2.items = db.items := by
  unfold OrderViewSet.sync_payment
  repeat' split
  all_goals rfl

end Tienda

namespace Tienda

/-- C9: every order line created by a successful checkout is priced from the
variant row read under lock (the client supplies no price at all), and no
later operation rewrites the order-items table: a live price edit, webhook
processing, cancellation and manual sync all leave every line — hence its
frozen price_at_purchase — untouched, so re-reading a line after the
variant's price changes still yields the originally frozen value. -/
theorem c9_price_at_purchase_frozen (db : DB) (locked : List Nat) (u : Nat)
    (lines : List CartLine) (pm : String) (oid : Nat) (db2 : DB) (r : Nat)
    (api : MPApi) (vid : Nat) (newp : Int) (topic data_id : String)
    (u2 pk : Nat) (pref : Option String)
    (hok : OrderCreateSerializer.create db locked u lines pm oid = .ok (db2, r)) :
    (∀ it ∈ db2.items, it ∉ db.items →
      ∃ v ∈ db.variants, v.id = it.variant ∧ it.price_at_purchase = v.price ∧ it.order = oid)
    ∧ (set_variant_price db2 vid newp).items = db2.items
    ∧ (process_mercadopago_webhook api topic data_id db2).items = db2.items
    ∧ (OrderViewSet.cancel db2 u2 pk).2.items = db2.items
    ∧ (OrderViewSet.sync_payment api db2 u2 pk pref).2.items = db2.items := by
  refine ⟨?_, rfl, process_webhook_preserves_items api topic data_id db2,
    cancel_preserves_items db2 u2 pk, sync_preserves_items api db2 u2 pk pref⟩
  intro it hit hnot
  rcases create_ok_items db locked u lines pm oid db2 r hok with ⟨vs, its, t, hpv, hitems⟩
  rw [hitems] at hit
  rcases List.mem_append.mp hit with h1 | h2
  · exact absurd h1 hnot
  · rcases processVariants_items_shape oid (quantities_map lines) _ vs its t hpv it h2 with
      ⟨v, hv, rfl⟩
    exact ⟨v, List.mem_of_mem_filter hv, rfl, rfl, rfl⟩

/-- C9 witness: checking out two units of SKU-1 concretely freezes price 100
into the line, and each later operation leaves the items table unchanged. -/
theorem c9_witness :
    (∀ it ∈ fixC9db2.items, it ∉ fixC9db.items →
      ∃ v ∈ fixC9db.variants, v.id = it.variant ∧ it.price_at_purchase = v.price ∧ it.order = 10)
    ∧ (set_variant_price fixC9db2 1 999).items = fixC9db2.items
    ∧ (process_mercadopago_webhook fixC9api "payment" "x" fixC9db2).items = fixC9db2.items
    ∧ (OrderViewSet.cancel fixC9db2 7 10).2.items = fixC9db2.items
    ∧ (OrderViewSet.sync_payment fixC9api fixC9db2 7 10 none).2.items = fixC9db2.items :=
  c9_price_at_purchase_frozen fixC9db [] 7 [⟨1, 2⟩] "mercadopago" 10 fixC9db2 10
    fixC9api 1 999 "payment" "x" 7 10 none rfl

end Tienda

namespace Tienda

/-- Auxiliary: rows of a table with distinct keys are determined by their
key. -/
theorem eq_of_mem_mem_nodup_key {α : Type} (key : α → Nat) (L : List α)
    (hN : (L.map key).Nodup) (a b : α) (ha : a ∈ L) (hb : b ∈ L)
    (hk : key a = key b) : a = b := by
  have h1 : L.find? (fun c => key c == key a) = some a :=
    find?_key_of_nodup key _ a (by simp) (fun c hc => by simpa using hc) L hN ha
  have h2 : L.find? (fun c => key c == key a) = some b :=
    find?_key_of_nodup key _ b (by simp [hk]) (fun c hc => by simp at hc; omega) L hN hb
  rw [h1] at h2
  injection h2

/-- Auxiliary: when the requested variant ids are distinct and all exist, the
ids of the batch-fetched rows are a permutation of the requested ids. -/
theorem fetch_ids_perm (db : DB) (lines : List CartLine)
    (hN : (db.variants.map ProductVariant.id).Nodup)
    (hLN : (lines.map CartLine.variant_id).Nodup)
    (hex : ∀ l ∈ lines, ∃ v ∈ db.variants, v.id = l.variant_id) :
    ((db.variants.filter
        (fun v => (lines.map CartLine.variant_id).contains v.id)).map
      ProductVariant.id).Perm (lines.map CartLine.variant_id) := by
  apply List.perm_of_nodup_nodup_toFinset_eq
  · exact hN.sublist ((db.variants.filter_sublist).map ProductVariant.id)
  · exact hLN
  · apply List.toFinset.ext
    intro x
    constructor
    · intro hx
      rcases List.mem_map.mp hx with ⟨v, hv, rfl⟩
      have := (List.mem_filter.mp hv).2
      simpa using this
    · intro hx
      rcases List.mem_map.mp hx with ⟨l, hl, rfl⟩
      rcases hex l hl with ⟨v, hv, hvid⟩
      refine List.mem_map.mpr ⟨v, List.mem_filter.mpr ⟨hv, ?_⟩, hvid⟩
      simp [hvid, List.mem_map]
      exact ⟨l, hl, rfl⟩

end Tienda

namespace Tienda

/-- C5 (amended): a lock-acquisition conflict makes order creation fail
immediately with the concurrency-conflict retry error and no state change,
but that error is distinguishable from the business-rule rejections only by
its message text: every raise site of the serializer, the concurrency
conflict included, surfaces the same ValidationError kind. -/
theorem c5_amended_concurrency_error_message_only (db : DB) (locked : List Nat)
    (u : Nat) (lines : List CartLine) (pm : String) (oid : Nat)
    (hne : lines ≠ [])
    (hval : validate_items lines = true)
    (hlock : ∃ v ∈ db.variants, (lines.map CartLine.variant_id).contains v.id = true ∧
        locked.contains v.id = true) :
    OrderViewSet.create db locked u lines pm oid = (.badRequest .concurrencyConflict, db)
    ∧ (∀ e : CreateErr, e.pythonExceptionClass = "rest_framework.serializers.ValidationError")
    ∧ CreateErr.concurrencyConflict.message =
        "Hubo un conflicto de concurrencia al procesar tu orden. Por favor intenta nuevamente." := by
  refine ⟨?_, fun e => by cases e <;> rfl, rfl⟩
  have hany : ((db.variants.filter
      (fun v => (lines.map CartLine.variant_id).contains v.id)).any
        (fun v => locked.contains v.id)) = true := by
    rw [List.any_eq_true]
    rcases hlock with ⟨v, hv, hv1, hv2⟩
    exact ⟨v, List.mem_filter.mpr ⟨hv, hv1⟩, hv2⟩
  have hser : OrderCreateSerializer.create db locked u lines pm oid =
      .error .concurrencyConflict := by
    simp only [OrderCreateSerializer.create]
    rw [if_pos hany]
  unfold OrderViewSet.create
  rw [if_neg (by simpa using hne), if_neg (by simp [hval]), hser]

/-- C5 amended witness: with variant 1 already locked by a concurrent
transaction, the concrete checkout of fixC5db fails with the concurrency
error, same exception kind as every business rejection. -/
theorem c5_amended_witness :
    OrderViewSet.create fixC5db [1] 7 [⟨1, 2⟩] "mercadopago" 10
      = (.badRequest .concurrencyConflict, fixC5db)
    ∧ (∀ e : CreateErr, e.pythonExceptionClass = "rest_framework.serializers.ValidationError")
    ∧ CreateErr.concurrencyConflict.message =
        "Hubo un conflicto de concurrencia al procesar tu orden. Por favor intenta nuevamente." :=
  c5_amended_concurrency_error_message_only fixC5db [1] 7 [⟨1, 2⟩] "mercadopago" 10
    (by decide) (by decide)
    ⟨{ id := 1, sku := "SKU-1", price := 100, stock := 5,
       product := { name := "Remera", is_active := true } },
     by decide, by decide, by decide⟩

end Tienda

namespace Tienda

/-- C10: a cart that lists the same variant_id on two or more lines is always
rejected: the quantities dict collapses the duplicates, the batched fetch
returns fewer rows than requested lines, and the length check fires the
variants-not-available error whose missing-ids set is empty (every requested
variant was in fact found); the database is unchanged. -/
theorem c10_duplicate_variant_lines_always_rejected (db : DB) (locked : List Nat)
    (u : Nat) (lines : List CartLine) (pm : String) (oid : Nat)
    (hN : (db.variants.map ProductVariant.id).Nodup)
    (hdup : ¬ (lines.map CartLine.variant_id).Nodup)
    (hval : validate_items lines = true)
    (hex : ∀ l ∈ lines, ∃ v ∈ db.variants, v.id = l.variant_id)
    (hnl : ∀ l ∈ lines, locked.contains l.variant_id = false) :
    OrderViewSet.create db locked u lines pm oid =
      (.badRequest (.variantsNotAvailable []), db) := by
  have hne : lines ≠ [] := fun h => hdup (by simp [h])
  have hanyf : ¬ (((db.variants.filter
      (fun v => (lines.map CartLine.variant_id).contains v.id)).any
        (fun v => locked.contains v.id)) = true) := by
    rw [List.any_eq_true]
    rintro ⟨v, hvf, hvl⟩
    have hvin := (List.mem_filter.mp hvf).2
    have : v.id ∈ lines.map CartLine.variant_id := by simpa using hvin
    rcases List.mem_map.mp this with ⟨l, hl, hlid⟩
    rw [← hlid] at hvl
    rw [hnl l hl] at hvl
    exact Bool.false_ne_true hvl
  have hfN : ((db.variants.filter
      (fun v => (lines.map CartLine.variant_id).contains v.id)).map
        ProductVariant.id).Nodup :=
    hN.sublist ((db.variants.filter_sublist).map ProductVariant.id)
  have hsub : ((db.variants.filter
      (fun v => (lines.map CartLine.variant_id).contains v.id)).map
        ProductVariant.id).toFinset ⊆ (lines.map CartLine.variant_id).toFinset := by
    intro x hx
    rw [List.mem_toFinset] at hx ⊢
    rcases List.mem_map.mp hx with ⟨v, hv, rfl⟩
    simpa using (List.mem_filter.mp hv).2
  have hcard3 : (lines.map CartLine.variant_id).toFinset.card <
      (lines.map CartLine.variant_id).length := by
    refine lt_of_le_of_ne (List.toFinset_card_le _) ?_
    intro h
    apply hdup
    have h' : ((lines.map CartLine.variant_id : Multiset Nat)).toFinset.card
        = Multiset.card (lines.map CartLine.variant_id : Multiset Nat) := by
      simpa using h
    simpa using Multiset.toFinset_card_eq_card_iff_nodup.mp h'
  have hlen : ((db.variants.filter
      (fun v => (lines.map CartLine.variant_id).contains v.id)).length
      ≠ (lines.map CartLine.variant_id).length) := by
    have h1 : ((db.variants.filter
        (fun v => (lines.map CartLine.variant_id).contains v.id)).length
        = ((db.variants.filter
          (fun v => (lines.map CartLine.variant_id).contains v.id)).map
            ProductVariant.id).length) := (List.length_map _ _).symm
    have h2 := List.toFinset_card_of_nodup hfN
    have h3 := Finset.card_le_card hsub
    omega
  have hfilt : ((lines.map CartLine.variant_id).filter
      (fun i => !(((db.variants.filter
        (fun v => (lines.map CartLine.variant_id).contains v.id)).map
          ProductVariant.id).contains i))) = [] := by
    rw [List.filter_eq_nil_iff]
    intro i hi hcontra
    rcases List.mem_map.mp hi with ⟨l, hl, hlid⟩
    rcases hex l hl with ⟨v, hv, hvid⟩
    have hvmem : v ∈ db.variants.filter
        (fun v => (lines.map CartLine.variant_id).contains v.id) := by
      refine List.mem_filter.mpr ⟨hv, ?_⟩
      have : v.id ∈ lines.map CartLine.variant_id := by
        rw [hvid, hlid]; exact hi
      simpa using this
    have hmem2 : i ∈ (db.variants.filter
        (fun v => (lines.map CartLine.variant_id).contains v.id)).map
          ProductVariant.id :=
      List.mem_map.mpr ⟨v, hvmem, by rw [hvid, hlid]⟩
    have hc2 : ((db.variants.filter
        (fun v => (lines.map CartLine.variant_id).contains v.id)).map
          ProductVariant.id).contains i = true := by simpa using hmem2
    rw [hc2] at hcontra
    simp at hcontra
  have hser : OrderCreateSerializer.create db locked u lines pm oid =
      .error (.variantsNotAvailable []) := by
    simp only [OrderCreateSerializer.create]
    rw [if_neg hanyf, if_pos hlen, hfilt]
    rfl
  unfold OrderViewSet.create
  rw [if_neg (by simpa using hne), if_neg (by simp [hval]), hser]

/-- C10 witness: a cart listing variant 1 twice on fixC10db, with plenty of
stock, is concretely rejected with an empty missing-ids set and no state
change. -/
theorem c10_witness :
    OrderViewSet.create fixC10db [] 7 [⟨1, 1⟩, ⟨1, 2⟩] "mercadopago" 10 =
      (.badRequest (.variantsNotAvailable []), fixC10db) :=
  c10_duplicate_variant_lines_always_rejected fixC10db [] 7 [⟨1, 1⟩, ⟨1, 2⟩] "mercadopago" 10
    (by decide) (by decide) (by decide) (by decide) (by decide)

end Tienda

namespace Tienda

/-- Auxiliary: when no requested variant id is in the locked set, the nowait
lock acquisition on the batched fetch succeeds. -/
theorem fetch_lock_clear (db : DB) (locked : List Nat) (lines : List CartLine)
    (hnl : ∀ l ∈ lines, locked.contains l.variant_id = false) :
    ((db.variants.filter
        (fun v => (lines.map CartLine.variant_id).contains v.id)).any
      (fun v => locked.contains v.id)) = false := by
  rw [List.any_eq_false]
  intro v hvf
  have : v.id ∈ lines.map CartLine.variant_id := by
    simpa using (List.mem_filter.mp hvf).2
  rcases List.mem_map.mp this with ⟨l, hl, hlid⟩
  rw [← hlid, hnl l hl]
  exact Bool.false_ne_true

/-- C4: when every requested variant exists with an active product and some
line requests more than its variant's available stock, order creation fails
with the insufficient-stock error naming that variant's SKU, its available
stock, and the requested quantity — and the returned state is the original
database: no stock changed, no order or line row persists. -/
theorem c4_insufficient_stock_rejected_rollback (db : DB) (locked : List Nat)
    (u : Nat) (lines : List CartLine) (pm : String) (oid : Nat)
    (hN : (db.variants.map ProductVariant.id).Nodup)
    (hLN : (lines.map CartLine.variant_id).Nodup)
    (hval : validate_items lines = true)
    (hex : ∀ l ∈ lines, ∃ v ∈ db.variants, v.id = l.variant_id ∧ v.product.is_active = true)
    (hnl : ∀ l ∈ lines, locked.contains l.variant_id = false)
    (hshort : ∃ l ∈ lines, ∃ v ∈ db.variants, v.id = l.variant_id ∧ v.stock < l.quantity) :
    ∃ l ∈ lines, ∃ v ∈ db.variants, v.id = l.variant_id ∧ v.stock < l.quantity ∧
      OrderViewSet.create db locked u lines pm oid =
        (.badRequest (.insufficientStock v.sku v.stock l.quantity), db) := by
  have hne : lines ≠ [] := by
    rcases hshort with ⟨l, hl, _⟩
    intro h
    rw [h] at hl
    cases hl
  have hperm := fetch_ids_perm db lines hN hLN
    (fun l hl => by rcases hex l hl with ⟨v, hv, hvid, _⟩; exact ⟨v, hv, hvid⟩)
  have hleneq : (db.variants.filter
      (fun v => (lines.map CartLine.variant_id).contains v.id)).length
      = (lines.map CartLine.variant_id).length := by
    have h1 := hperm.length_eq
    rwa [List.length_map] at h1
  have hact : ∀ v ∈ db.variants.filter
      (fun v => (lines.map CartLine.variant_id).contains v.id),
      v.product.is_active = true := by
    intro v hvf
    have hvdb := (List.mem_filter.mp hvf).1
    have : v.id ∈ lines.map CartLine.variant_id := by
      simpa using (List.mem_filter.mp hvf).2
    rcases List.mem_map.mp this with ⟨l, hl, hlid⟩
    rcases hex l hl with ⟨v', hv', hv'id, hv'act⟩
    have hvv : v' = v :=
      eq_of_mem_mem_nodup_key ProductVariant.id db.variants hN v' v hv' hvdb
        (by rw [hv'id, hlid])
    rw [← hvv]
    exact hv'act
  have hexshort : ∃ v ∈ db.variants.filter
      (fun v => (lines.map CartLine.variant_id).contains v.id),
      v.stock < quantities_map lines v.id := by
    rcases hshort with ⟨l, hl, v, hv, hvid, hlt⟩
    have hvmem : v.id ∈ lines.map CartLine.variant_id := by
      rw [hvid]
      exact List.mem_map.mpr ⟨l, hl, rfl⟩
    refine ⟨v, List.mem_filter.mpr ⟨hv, by simpa using hvmem⟩, ?_⟩
    rw [hvid, quantities_map_of_nodup lines hLN l hl]
    exact hlt
  rcases processVariants_insufficient oid (quantities_map lines) _ hact hexshort with
    ⟨w, hwf, hws, heq⟩
  have hwdb := (List.mem_filter.mp hwf).1
  have hwmem : w.id ∈ lines.map CartLine.variant_id := by
    simpa using (List.mem_filter.mp hwf).2
  rcases List.mem_map.mp hwmem with ⟨lw, hlw, hlwid⟩
  have hq : quantities_map lines w.id = lw.quantity := by
    rw [← hlwid]
    exact quantities_map_of_nodup lines hLN lw hlw
  refine ⟨lw, hlw, w, hwdb, hlwid.symm, by rw [← hq]; exact hws, ?_⟩
  have hser : OrderCreateSerializer.create db locked u lines pm oid =
      .error (.insufficientStock w.sku w.stock lw.quantity) := by
    simp only [OrderCreateSerializer.create]
    rw [if_neg (by rw [fetch_lock_clear db locked lines hnl]; exact Bool.false_ne_true),
      if_neg (not_not_intro hleneq)]
    simp only [heq]
    rw [hq]
  unfold OrderViewSet.create
  rw [if_neg (by simpa using hne), if_neg (by simp [hval]), hser]

/-- C4 witness: requesting 5 units of SKU-1 with only 1 in stock on fixC4db
concretely fails with the insufficient-stock error naming SKU-1, 1 available,
5 requested, and the database comes back unchanged. -/
theorem c4_witness :
    ∃ l ∈ [(⟨1, 5⟩ : CartLine)], ∃ v ∈ fixC4db.variants,
      v.id = l.variant_id ∧ v.stock < l.quantity ∧
      OrderViewSet.create fixC4db [] 7 [⟨1, 5⟩] "mercadopago" 10 =
        (.badRequest (.insufficientStock v.sku v.stock l.quantity), fixC4db) :=
  c4_insufficient_stock_rejected_rollback fixC4db [] 7 [⟨1, 5⟩] "mercadopago" 10
    (by decide) (by decide) (by decide) (by decide) (by decide) (by decide)

end Tienda

namespace Tienda

/-- Auxiliary: the PASO D bulk stock update commutes with a primary-key
lookup, because it preserves every row's id. -/
theorem findVariant_bulk_update (dbv : List ProductVariant) (vs : List ProductVariant)
    (vid : Nat) :
    (dbv.map (fun v =>
        match vs.find? (fun w => w.id == v.id) with
        | some w => { v with stock := w.stock }
        | none => v)).find? (fun w => w.id == vid)
    = (dbv.find? (fun w => w.id == vid)).map (fun v =>
        match vs.find? (fun w => w.id == v.id) with
        | some w => { v with stock := w.stock }
        | none => v) :=
  find?_map_comm _ _
    (fun a => by cases h : vs.find? (fun w => w.id == a.id) <;> simp [h]) dbv

/-- Auxiliary: reading a variant out of the committed checkout state. -/
theorem commitCreate_findVariant (db : DB) (user : Nat) (pm : String) (oid : Nat)
    (vs : List ProductVariant) (its : List OrderItem) (t : Int) (vid : Nat) :
    (OrderCreateSerializer.commitCreate db user pm oid vs its t).findVariant vid
    = (db.variants.map (fun v =>
        match vs.find? (fun w => w.id == v.id) with
        | some w => { v with stock := w.stock }
        | none => v)).find? (fun w => w.id == vid) :=
  rfl

/-- Auxiliary: reading an order out of the committed checkout state. -/
theorem commitCreate_findOrder (db : DB) (user : Nat) (pm : String) (oid : Nat)
    (vs : List ProductVariant) (its : List OrderItem) (t : Int) (oid2 : Nat) :
    (OrderCreateSerializer.commitCreate db user pm oid vs its t).findOrder oid2
    = (db.orders ++
        [({ id := oid, user := user, status := .pending, payment_method := pm,
            payment_id := none, total := t, external_reference := none } : Order)]).find?
        (fun o => o.id == oid2) :=
  rfl

/-- C3: a valid cart — distinct lines, positive quantities, every variant
existing with an active product and enough stock, no lock contention, a
fresh order id — checks out successfully: each requested variant's stock is
decremented by exactly the requested quantity, and the order's total is the
sum over the cart lines of the locked variant price times quantity (the
client never supplies a price; each created line freezes the locked price). -/
theorem c3_valid_cart_checkout (db : DB) (locked : List Nat) (u : Nat)
    (lines : List CartLine) (pm : String) (oid : Nat)
    (hN : (db.variants.map ProductVariant.id).Nodup)
    (hLN : (lines.map CartLine.variant_id).Nodup)
    (hne : lines ≠ [])
    (hval : validate_items lines = true)
    (hvalid : ∀ l ∈ lines, ∃ v ∈ db.variants,
      v.id = l.variant_id ∧ v.product.is_active = true ∧ l.quantity ≤ v.stock)
    (hnl : ∀ l ∈ lines, locked.contains l.variant_id = false)
    (hfresh : ∀ o ∈ db.orders, o.id ≠ oid) :
    ∃ db2,
      OrderViewSet.create db locked u lines pm oid = (.created oid, db2) ∧
      (∀ l ∈ lines, ∀ v ∈ db.variants, v.id = l.variant_id →
        db2.findVariant l.variant_id = some { v with stock := v.stock - l.quantity }) ∧
      (∃ o2, db2.findOrder oid = some o2 ∧ o2.user = u ∧ o2.status = .pending ∧
        o2.total = (lines.map (fun l =>
          (((db.findVariant l.variant_id).map ProductVariant.price).getD 0)
            * (l.quantity : Int))).sum) ∧
      (∀ l ∈ lines,
        { order := oid, variant := l.variant_id, quantity := l.quantity,
          price_at_purchase :=
            ((db.findVariant l.variant_id).map ProductVariant.price).getD 0 }
          ∈ db2.items) := by
  have hex : ∀ l ∈ lines, ∃ v ∈ db.variants, v.id = l.variant_id :=
    fun l hl => by rcases hvalid l hl with ⟨v, hv, hvid, _⟩; exact ⟨v, hv, hvid⟩
  have hperm := fetch_ids_perm db lines hN hLN hex
  have hleneq : (db.variants.filter
      (fun v => (lines.map CartLine.variant_id).contains v.id)).length
      = (lines.map CartLine.variant_id).length := by
    have h1 := hperm.length_eq
    rwa [List.length_map] at h1
  have hfN : ((db.variants.filter
      (fun v => (lines.map CartLine.variant_id).contains v.id)).map
        ProductVariant.id).Nodup :=
    hN.sublist ((db.variants.filter_sublist).map ProductVariant.id)
  have hfinddb : ∀ v ∈ db.variants, db.findVariant v.id = some v := by
    intro v hv
    exact find?_key_of_nodup ProductVariant.id _ v (by simp)
      (fun b hb => by simpa using hb) db.variants hN hv
  have hprehyp : ∀ v ∈ db.variants.filter
      (fun v => (lines.map CartLine.variant_id).contains v.id),
      v.product.is_active = true ∧ quantities_map lines v.id ≤ v.stock := by
    intro v hvf
    have hvdb := (List.mem_filter.mp hvf).1
    have : v.id ∈ lines.map CartLine.variant_id := by
      simpa using (List.mem_filter.mp hvf).2
    rcases List.mem_map.mp this with ⟨l, hl, hlid⟩
    rcases hvalid l hl with ⟨v', hv', hv'id, hv'act, hv'st⟩
    have hvv : v' = v :=
      eq_of_mem_mem_nodup_key ProductVariant.id db.variants hN v' v hv' hvdb
        (by rw [hv'id, hlid])
    subst hvv
    refine ⟨hv'act, ?_⟩
    rw [← hlid, quantities_map_of_nodup lines hLN l hl]
    exact hv'st
  have hmemfetch : ∀ l ∈ lines, ∀ v ∈ db.variants, v.id = l.variant_id →
      v ∈ db.variants.filter
        (fun v => (lines.map CartLine.variant_id).contains v.id) := by
    intro l hl v hv hvid
    refine List.mem_filter.mpr ⟨hv, ?_⟩
    have : v.id ∈ lines.map CartLine.variant_id := by
      rw [hvid]; exact List.mem_map.mpr ⟨l, hl, rfl⟩
    simpa using this
  have hok : OrderCreateSerializer.create db locked u lines pm oid =
      .ok (OrderCreateSerializer.commitCreate db u pm oid
        ((db.variants.filter
            (fun v => (lines.map CartLine.variant_id).contains v.id)).map
          (fun v => { v with stock := v.stock - quantities_map lines v.id }))
        ((db.variants.filter
            (fun v => (lines.map CartLine.variant_id).contains v.id)).map
          (fun v => { order := oid, variant := v.id,
                      quantity := quantities_map lines v.id,
                      price_at_purchase := v.price }))
        ((db.variants.filter
            (fun v => (lines.map CartLine.variant_id).contains v.id)).map
          (fun v => v.price * (quantities_map lines v.id : Int))).sum, oid) := by
    simp only [OrderCreateSerializer.create]
    rw [if_neg (by rw [fetch_lock_clear db locked lines hnl]; exact Bool.false_ne_true),
      if_neg (not_not_intro hleneq),
      processVariants_ok oid (quantities_map lines) _ hprehyp]
  refine ⟨OrderCreateSerializer.commitCreate db u pm oid
      ((db.variants.filter
          (fun v => (lines.map CartLine.variant_id).contains v.id)).map
        (fun v => { v with stock := v.stock - quantities_map lines v.id }))
      ((db.variants.filter
          (fun v => (lines.map CartLine.variant_id).contains v.id)).map
        (fun v => { order := oid, variant := v.id,
                    quantity := quantities_map lines v.id,
                    price_at_purchase := v.price }))
      ((db.variants.filter
          (fun v => (lines.map CartLine.variant_id).contains v.id)).map
        (fun v => v.price * (quantities_map lines v.id : Int))).sum,
    ?_, ?_, ?_, ?_⟩
  · unfold OrderViewSet.create
    rw [if_neg (by simpa using hne), if_neg (by simp [hval]), hok]
  · intro l hl v hv hvid
    have hvf := hmemfetch l hl v hv hvid
    have hfindf : (db.variants.filter
        (fun v => (lines.map CartLine.variant_id).contains v.id)).find?
          (fun w => w.id == v.id) = some v :=
      find?_key_of_nodup ProductVariant.id _ v (by simp)
        (fun b hb => by simpa using hb) _ hfN hvf
    rw [commitCreate_findVariant, findVariant_bulk_update]
    have hfind2 : db.variants.find? (fun w => w.id == l.variant_id) = some v :=
      find?_key_of_nodup ProductVariant.id _ v (by simp [hvid])
        (fun b hb => by simp at hb; omega) db.variants hN hv
    rw [hfind2, Option.map_some']
    rw [find?_map_comm
      (fun v : ProductVariant => { v with stock := v.stock - quantities_map lines v.id })
      (fun w : ProductVariant => w.id == v.id) (fun a => by simp) _, hfindf]
    have hq : quantities_map lines v.id = l.quantity := by
      rw [hvid]; exact quantities_map_of_nodup lines hLN l hl
    simp [hq]
  · refine
      ⟨({ id := oid, user := u, status := .pending, payment_method := pm,
          payment_id := none,
          total := ((db.variants.filter
              (fun v => (lines.map CartLine.variant_id).contains v.id)).map
            (fun v => v.price * (quantities_map lines v.id : Int))).sum,
          external_reference := none } : Order),
       ?_, rfl, rfl, ?_⟩
    · rw [commitCreate_findOrder, List.find?_append]
      have hnone : db.orders.find? (fun o => o.id == oid) = none := by
        rw [List.find?_eq_none]
        intro o ho hc
        exact hfresh o ho (by simpa using hc)
      rw [hnone]
      simp
    · show ((db.variants.filter
          (fun v => (lines.map CartLine.variant_id).contains v.id)).map
            (fun v => v.price * (quantities_map lines v.id : Int))).sum = _
      have hstep1 : (db.variants.filter
          (fun v => (lines.map CartLine.variant_id).contains v.id)).map
            (fun v => v.price * (quantities_map lines v.id : Int))
          = (db.variants.filter
          (fun v => (lines.map CartLine.variant_id).contains v.id)).map
            (fun v => (((db.findVariant v.id).map ProductVariant.price).getD 0)
              * (quantities_map lines v.id : Int)) := by
        apply List.map_congr_left
        intro v hvf
        rw [hfinddb v (List.mem_filter.mp hvf).1]
        rfl
      have hstep3 : lines.map (fun l =>
            (((db.findVariant l.variant_id).map ProductVariant.price).getD 0)
              * (l.quantity : Int))
          = lines.map (fun l =>
            (((db.findVariant l.variant_id).map ProductVariant.price).getD 0)
              * (quantities_map lines l.variant_id : Int)) := by
        apply List.map_congr_left
        intro l hl
        rw [quantities_map_of_nodup lines hLN l hl]
      rw [hstep1, hstep3]
      have hmm1 : (db.variants.filter
          (fun v => (lines.map CartLine.variant_id).contains v.id)).map
            (fun v => (((db.findVariant v.id).map ProductVariant.price).getD 0)
              * (quantities_map lines v.id : Int))
          = ((db.variants.filter
          (fun v => (lines.map CartLine.variant_id).contains v.id)).map
            ProductVariant.id).map
            (fun i => (((db.findVariant i).map ProductVariant.price).getD 0)
              * (quantities_map lines i : Int)) := by
        rw [List.map_map]
        rfl
      have hmm2 : lines.map (fun l =>
            (((db.findVariant l.variant_id).map ProductVariant.price).getD 0)
              * (quantities_map lines l.variant_id : Int))
          = (lines.map CartLine.variant_id).map
            (fun i => (((db.findVariant i).map ProductVariant.price).getD 0)
              * (quantities_map lines i : Int)) := by
        rw [List.map_map]
        rfl
      rw [hmm1, hmm2]
      exact (hperm.map _).sum_eq
  · intro l hl
    rcases hvalid l hl with ⟨v, hv, hvid, _, _⟩
    have hvf := hmemfetch l hl v hv hvid
    have hq : quantities_map lines v.id = l.quantity := by
      rw [hvid]; exact quantities_map_of_nodup lines hLN l hl
    show _ ∈ db.items ++ _
    refine List.mem_append_right _ ?_
    refine List.mem_map.mpr ⟨v, hvf, ?_⟩
    have hfv : db.findVariant l.variant_id = some v := by
      rw [← hvid]
      exact hfinddb v hv
    rw [hq, hvid, hfv]
    rfl

end Tienda

namespace Tienda

/-- C3 witness: checking out 2 units of SKU-1 and 1 unit of SKU-2 on fixC3db
concretely succeeds, decrements stocks 5 to 3 and 4 to 3, and totals
2 times 100 plus 1 times 250 from the locked prices. -/
theorem c3_witness :
    ∃ db2,
      OrderViewSet.create fixC3db [] 7 [⟨1, 2⟩, ⟨2, 1⟩] "mercadopago" 10 =
        (.created 10, db2) ∧
      (∀ l ∈ [(⟨1, 2⟩ : CartLine), ⟨2, 1⟩], ∀ v ∈ fixC3db.variants, v.id = l.variant_id →
        db2.findVariant l.variant_id = some { v with stock := v.stock - l.quantity }) ∧
      (∃ o2, db2.findOrder 10 = some o2 ∧ o2.user = 7 ∧ o2.status = .pending ∧
        o2.total = ([(⟨1, 2⟩ : CartLine), ⟨2, 1⟩].map (fun l =>
          (((fixC3db.findVariant l.variant_id).map ProductVariant.price).getD 0)
            * (l.quantity : Int))).sum) ∧
      (∀ l ∈ [(⟨1, 2⟩ : CartLine), ⟨2, 1⟩],
        { order := 10, variant := l.variant_id, quantity := l.quantity,
          price_at_purchase :=
            ((fixC3db.findVariant l.variant_id).map ProductVariant.price).getD 0 }
          ∈ db2.items) :=
  c3_valid_cart_checkout fixC3db [] 7 [⟨1, 2⟩, ⟨2, 1⟩] "mercadopago" 10
    (by decide) (by decide) (by decide) (by decide) (by decide) (by decide) (by decide)

end Tienda
